import Mathlib

/-!
# Verification of the CourseStore CRUD layer (`src/aipair/crud.py`)

This file shallowly embeds the course CRUD layer of the repository in Lean 4
and proves the specified properties about it.

Modelling decisions, all read off the source:

* The SQLite database behind one `db_path` is modelled as a `Store`: the list
  of rows of the `COURSES` table (kept in insertion order) together with the
  `AUTOINCREMENT` sequence counter `nextId`.  `AUTOINCREMENT` guarantees that
  a freshly inserted row receives an id strictly larger than every id ever
  used in the table, which is exactly what the counter expresses.
* Python is dynamically typed and the code uses `isinstance` checks and
  truthiness tests, so operation arguments are values of an inductive `PyVal`
  covering the Python values relevant to the code: strings, ints, bools
  (which satisfy `isinstance(_, int)` in Python), floats, `None` and a
  residual `obj` constructor for every other object (lists, dicts, ...),
  which the `sqlite3` driver rejects with an `InterfaceError` when passed as
  a statement parameter.  Python floats are modelled as exact rationals;
  no claim depends on binary floating-point rounding.
* `ValueError` (the "ValidationError" of the spec) and `RuntimeError`
  (the "StorageError") become the two constructors of `CrudError`.
* Each mutating operation returns `(Except CrudError result) × Store`: the
  second component is the state of the database after the call.  Validation
  raises before any storage access, and each operation executes a single SQL
  statement inside `with conn:` (commit on success, rollback on exception),
  so on every error path the database is left exactly as it was.
* `title` has column affinity `TEXT`: numeric values that reach storage are
  stored as their decimal text.  The exact digit string rendered by SQLite
  is irrelevant to every claim (only non-emptiness of the stored title is
  ever used), so the rendering reuses Lean's `Int.repr`.
-/

/-- A Python value, as far as the CRUD code can distinguish them. -/
inductive PyVal where
  | pstr (s : String)
  | pint (n : Int)
  | pbool (b : Bool)
  | pfloat (q : ℚ)
  | pnone
  | obj (isTruthy : Bool)
deriving DecidableEq, Repr

namespace PyVal

/-- Python `isinstance(v, str)`. -/
def isStr : PyVal → Bool
  | pstr _ => true
  | _ => false

/-- Python `isinstance(v, int)`: `bool` is a subclass of `int`. -/
def isInt : PyVal → Bool
  | pint _ => true
  | pbool _ => true
  | _ => false

/-- Python `isinstance(v, (int, float))`. -/
def isNum : PyVal → Bool
  | pint _ => true
  | pbool _ => true
  | pfloat _ => true
  | _ => false

/-- Python truthiness (`bool(v)`); `obj` carries its own truthiness
(e.g. an empty list is falsy, a non-empty one truthy). -/
def truthy : PyVal → Bool
  | pstr s => s ≠ ""
  | pint n => n ≠ 0
  | pbool b => b
  | pfloat q => q ≠ 0
  | pnone => false
  | obj t => t

/-- Integer value of a `PyVal` satisfying `isInt` (junk elsewhere). -/
def asInt : PyVal → Int
  | pint n => n
  | pbool b => if b then 1 else 0
  | _ => 0

/-- String value of a `PyVal` satisfying `isStr` (junk elsewhere). -/
def asStr : PyVal → String
  | pstr s => s
  | _ => ""

/-- Python `float(v)` for `v` satisfying `isNum`, as an exact rational
(junk elsewhere). -/
def pyFloat : PyVal → ℚ
  | pint n => (n : ℚ)
  | pbool b => if b then 1 else 0
  | pfloat q => q
  | _ => 0

/-- Python numeric comparison `v < 0` for `v` satisfying `isNum`
(junk elsewhere). -/
def lt0 : PyVal → Bool
  | pint n => n < 0
  | pbool _ => false
  | pfloat q => q < 0
  | _ => false

/-- The `sqlite3` parameter adaptation followed by the `TEXT` column affinity
of the `title` column: strings are stored verbatim, numerics as their decimal
text, and unsupported objects are rejected (`InterfaceError`, i.e. `none`). -/
def toText : PyVal → Option String
  | pstr s => some s
  | pint n => some (Int.repr n)
  | pbool b => some (if b then "1" else "0")
  | pfloat q => some (Int.repr q.num ++ "/" ++ Int.repr (q.den : Int))
  | pnone => none
  | obj _ => none

end PyVal

/-- A stored row of the `COURSES` table.  After column affinity the `title`
column always holds text; `duration` has `INTEGER` affinity and `fee` holds
the `REAL` produced by `float(fee)`. -/
structure Course where
  id : Nat
  title : String
  duration : Int
  fee : ℚ
deriving DecidableEq, Repr

/-- The state of the database file: the rows of `COURSES` in insertion order
and the `AUTOINCREMENT` counter (the next id to be assigned). -/
structure Store where
  rows : List Course
  nextId : Nat
deriving DecidableEq, Repr

/-- A freshly created database: empty table, first id to be assigned is 1. -/
def store0 : Store := { rows := [], nextId := 1 }

/-- The two error kinds of the layer: `ValueError` for validation failures
("ValidationError") and `RuntimeError` wrapping storage failures
("StorageError"). -/
inductive CrudError where
  | valueError (msg : String)
  | runtimeError (msg : String)
deriving DecidableEq, Repr

open PyVal

/-- `create_course(title, duration, fee)`: validates the three fields in
order, then inserts a row with the next `AUTOINCREMENT` id and returns it. -/
def create_course (title duration fee : PyVal) (s : Store) :
    (Except CrudError Nat) × Store :=
  if ¬ title.truthy ∨ ¬ title.isStr then
    (.error (.valueError "title must be a non-empty string"), s)
  else if ¬ duration.isInt ∨ duration.lt0 then
    (.error (.valueError "duration must be a non-negative integer"), s)
  else if ¬ fee.isNum ∨ fee.lt0 then
    (.error (.valueError "fee must be a non-negative number"), s)
  else
    let newId := s.nextId
    let row : Course :=
      { id := newId, title := title.asStr, duration := duration.asInt,
        fee := fee.pyFloat }
    (.ok newId, { rows := s.rows ++ [row], nextId := newId + 1 })

/-- `get_course(course_id)`: validates the id, then returns the matching row
(`SELECT ... WHERE id = ?` + `fetchone`) or `none`.  Reads do not change the
store. -/
def get_course (course_id : PyVal) (s : Store) :
    Except CrudError (Option Course) :=
  if ¬ course_id.isInt ∨ course_id.asInt < 1 then
    .error (.valueError "course_id must be a positive integer")
  else
    .ok (s.rows.find? (fun r => (r.id : Int) = course_id.asInt))

/-- Applies the `SET` clauses of an `update_course` call to one row.
`pnone` means the field was not supplied.  Only called once the supplied
values have passed validation and parameter adaptation. -/
def applyUpdate (title duration fee : PyVal) (r : Course) : Course :=
  { r with
    title := if title ≠ PyVal.pnone then title.toText.getD r.title else r.title
    duration := if duration ≠ PyVal.pnone then duration.asInt else r.duration
    fee := if fee ≠ PyVal.pnone then fee.pyFloat else r.fee }

/-- `update_course(course_id, title, duration, fee)`: validates the id, then
each supplied field (note: a supplied title is only tested for truthiness,
`if not title`), requires at least one field, then runs a single `UPDATE`
statement and reports via `cur.rowcount > 0` whether a row matched.  A
supplied title the driver cannot adapt raises `sqlite3.InterfaceError`,
re-raised as `RuntimeError`; the transaction is rolled back. -/
def update_course (course_id title duration fee : PyVal) (s : Store) :
    (Except CrudError Bool) × Store :=
  if ¬ course_id.isInt ∨ course_id.asInt < 1 then
    (.error (.valueError "course_id must be a positive integer"), s)
  else if title ≠ PyVal.pnone ∧ ¬ title.truthy then
    (.error (.valueError "title must be a non-empty string"), s)
  else if duration ≠ PyVal.pnone ∧ (¬ duration.isInt ∨ duration.lt0) then
    (.error (.valueError "duration must be a non-negative integer"), s)
  else if fee ≠ PyVal.pnone ∧ (¬ fee.isNum ∨ fee.lt0) then
    (.error (.valueError "fee must be a non-negative number"), s)
  else if title = PyVal.pnone ∧ duration = PyVal.pnone ∧ fee = PyVal.pnone then
    (.error (.valueError
      "At least one field (title, duration, fee) must be provided to update"), s)
  else if title ≠ PyVal.pnone ∧ title.toText = Option.none then
    (.error (.runtimeError "Failed to update course: parameter not supported"), s)
  else
    let matched := s.rows.any (fun r => (r.id : Int) = course_id.asInt)
    (.ok matched,
      { s with rows := s.rows.map (fun r =>
          if (r.id : Int) = course_id.asInt
          then applyUpdate title duration fee r else r) })

/-- `delete_course(course_id)`: validates the id, runs a single `DELETE`
statement and reports via `cur.rowcount > 0` whether a row was removed. -/
def delete_course (course_id : PyVal) (s : Store) :
    (Except CrudError Bool) × Store :=
  if ¬ course_id.isInt ∨ course_id.asInt < 1 then
    (.error (.valueError "course_id must be a positive integer"), s)
  else
    let matched := s.rows.any (fun r => (r.id : Int) = course_id.asInt)
    (.ok matched,
      { s with rows := s.rows.filter (fun r => (r.id : Int) ≠ course_id.asInt) })

/-- `list_courses()`: `SELECT ... ORDER BY id`, i.e. the rows sorted by
ascending id.  Reads do not change the store. -/
def list_courses (s : Store) : List Course :=
  s.rows.insertionSort (fun a b => a.id ≤ b.id)

/-- The store reached from a fresh database by creating three courses (which
receive ids 1, 2, 3) and then deleting the course with id 2. -/
def demo123 : Store :=
  (delete_course (PyVal.pint 2)
    (create_course (PyVal.pstr "c") (PyVal.pint 3) (PyVal.pint 3)
      (create_course (PyVal.pstr "b") (PyVal.pint 2) (PyVal.pint 2)
        (create_course (PyVal.pstr "a") (PyVal.pint 1) (PyVal.pint 1)
          store0).2).2).2).2

/-- The states of one store reachable from a fresh database by any sequence
of `create_course`, `update_course` and `delete_course` calls (successful or
failing), together with the list of ids assigned so far, in order. -/
inductive Reach : Store → List Nat → Prop where
  | init : Reach store0 []
  | createOk {s ids t d f i s'} : Reach s ids →
      create_course t d f s = (.ok i, s') → Reach s' (ids ++ [i])
  | createErr {s ids t d f e s'} : Reach s ids →
      create_course t d f s = (.error e, s') → Reach s' ids
  | updateOk {s ids c t d f b s'} : Reach s ids →
      update_course c t d f s = (.ok b, s') → Reach s' ids
  | updateErr {s ids c t d f e s'} : Reach s ids →
      update_course c t d f s = (.error e, s') → Reach s' ids
  | deleteOk {s ids c b s'} : Reach s ids →
      delete_course c s = (.ok b, s') → Reach s' ids
  | deleteErr {s ids c e s'} : Reach s ids →
      delete_course c s = (.error e, s') → Reach s' ids

/-! ## Basic lemmas about the value model -/

theorem toDigitsCore_cons_ne_nil (b f n : Nat) (c : Char) (ds : List Char) :
    Nat.toDigitsCore b f n (c :: ds) ≠ [] := by
  induction f generalizing n c ds with
  | zero => simp [Nat.toDigitsCore]
  | succ f ih =>
    simp only [Nat.toDigitsCore]
    split
    · simp
    · exact ih _ _ _

theorem toDigits_ne_nil (b n : Nat) : Nat.toDigits b n ≠ [] := by
  unfold Nat.toDigits
  simp only [Nat.toDigitsCore]
  split
  · simp
  · exact toDigitsCore_cons_ne_nil _ _ _ _ _

theorem Nat_repr_ne_empty (n : Nat) : Nat.repr n ≠ "" := by
  unfold Nat.repr
  intro h
  exact toDigits_ne_nil 10 n (by simpa [List.asString, String.ext_iff] using h)

theorem Int_repr_ne_empty (n : Int) : Int.repr n ≠ "" := by
  cases n with
  | ofNat m => exact Nat_repr_ne_empty m
  | negSucc m =>
    intro h
    have := congrArg String.length h
    simp [Int.repr] at this
    exact absurd this.1 (by decide)

namespace PyVal

theorem asStr_ne_empty {v : PyVal} (h1 : v.truthy = true) (h2 : v.isStr = true) :
    v.asStr ≠ "" := by
  cases v <;> simp_all [truthy, isStr, asStr]

theorem asInt_nonneg {v : PyVal} (h1 : v.isInt = true) (h2 : v.lt0 = false) :
    0 ≤ v.asInt := by
  cases v <;> simp_all [isInt, lt0, asInt]
  split <;> simp

theorem pyFloat_nonneg {v : PyVal} (h1 : v.isNum = true) (h2 : v.lt0 = false) :
    0 ≤ v.pyFloat := by
  cases v <;> simp_all [isNum, lt0, pyFloat]
  split <;> simp

theorem toText_ne_empty {v : PyVal} {t : String} (h1 : v.truthy = true)
    (h2 : v.toText = some t) : t ≠ "" := by
  cases v with
  | pstr s => simp_all [truthy, toText]
  | pint n =>
    simp only [toText, Option.some.injEq] at h2
    exact h2 ▸ Int_repr_ne_empty n
  | pbool b =>
    simp only [toText, Option.some.injEq] at h2
    subst h2; split <;> simp
  | pfloat q =>
    simp only [toText, Option.some.injEq] at h2
    subst h2
    intro h
    have hlen := congrArg String.length h
    simp [String.length_append] at hlen
    exact absurd hlen.1.2 (by decide)
  | pnone => simp [toText] at h2
  | obj t' => simp [toText] at h2

end PyVal

/-! ## Errors leave the store unchanged -/

theorem create_error_unchanged {t d f : PyVal} {s s' : Store} {e : CrudError}
    (h : create_course t d f s = (.error e, s')) : s' = s := by
  unfold create_course at h
  split at h
  · exact (Prod.mk.injEq _ _ _ _ ▸ h).2.symm ▸ rfl
  · split at h
    · exact congrArg Prod.snd h |>.symm
    · split at h
      · exact congrArg Prod.snd h |>.symm
      · simp at h

theorem update_error_unchanged {c t d f : PyVal} {s s' : Store} {e : CrudError}
    (h : update_course c t d f s = (.error e, s')) : s' = s := by
  unfold update_course at h
  split at h
  · exact congrArg Prod.snd h |>.symm
  · split at h
    · exact congrArg Prod.snd h |>.symm
    · split at h
      · exact congrArg Prod.snd h |>.symm
      · split at h
        · exact congrArg Prod.snd h |>.symm
        · split at h
          · exact congrArg Prod.snd h |>.symm
          · split at h
            · exact congrArg Prod.snd h |>.symm
            · simp at h

theorem delete_error_unchanged {c : PyVal} {s s' : Store} {e : CrudError}
    (h : delete_course c s = (.error e, s')) : s' = s := by
  unfold delete_course at h
  split at h
  · exact congrArg Prod.snd h |>.symm
  · simp at h

/-! ## Success-branch extraction lemmas -/

theorem create_ok_extract {t d f : PyVal} {s s' : Store} {i : Nat}
    (h : create_course t d f s = (.ok i, s')) :
    t.truthy = true ∧ t.isStr = true ∧ d.isInt = true ∧ d.lt0 = false ∧
    f.isNum = true ∧ f.lt0 = false ∧ i = s.nextId ∧
    s' = ⟨s.rows ++ [⟨s.nextId, t.asStr, d.asInt, f.pyFloat⟩], s.nextId + 1⟩ := by
  unfold create_course at h
  split at h
  · simp at h
  next h1 =>
    split at h
    · simp at h
    next h2 =>
      split at h
      · simp at h
      next h3 =>
        push_neg at h1 h2 h3
        simp only [Prod.mk.injEq, Except.ok.injEq] at h
        exact ⟨by simpa using h1.1, by simpa using h1.2, by simpa using h2.1,
          by simpa using h2.2, by simpa using h3.1, by simpa using h3.2,
          h.1.symm, h.2.symm⟩

theorem update_ok_extract {c t d f : PyVal} {s s' : Store} {b : Bool}
    (h : update_course c t d f s = (.ok b, s')) :
    c.isInt = true ∧ 1 ≤ c.asInt ∧
    (t = PyVal.pnone ∨ t.truthy = true) ∧
    (t = PyVal.pnone ∨ t.toText.isSome = true) ∧
    (d = PyVal.pnone ∨ (d.isInt = true ∧ d.lt0 = false)) ∧
    (f = PyVal.pnone ∨ (f.isNum = true ∧ f.lt0 = false)) ∧
    ¬ (t = PyVal.pnone ∧ d = PyVal.pnone ∧ f = PyVal.pnone) ∧
    b = s.rows.any (fun r => (r.id : Int) = c.asInt) ∧
    s' = { s with rows := s.rows.map (fun r =>
        if (r.id : Int) = c.asInt then applyUpdate t d f r else r) } := by
  unfold update_course at h
  split at h
  · simp at h
  next h1 =>
    split at h
    · simp at h
    next h2 =>
      split at h
      · simp at h
      next h3 =>
        split at h
        · simp at h
        next h4 =>
          split at h
          · simp at h
          next h5 =>
            split at h
            · simp at h
            next h6 =>
              push_neg at h1
              simp only [Prod.mk.injEq, Except.ok.injEq] at h
              refine ⟨by simpa using h1.1, h1.2, ?_, ?_, ?_, ?_, h5, h.1.symm, h.2.symm⟩
              · by_cases ht : t = PyVal.pnone
                · exact Or.inl ht
                · refine Or.inr ?_
                  by_contra hnt
                  exact h2 ⟨ht, by simpa using hnt⟩
              · by_cases ht : t = PyVal.pnone
                · exact Or.inl ht
                · refine Or.inr ?_
                  by_contra hnt
                  exact h6 ⟨ht, Option.not_isSome_iff_eq_none.mp (by simpa using hnt)⟩
              · by_cases hd : d = PyVal.pnone
                · exact Or.inl hd
                · refine Or.inr ⟨?_, ?_⟩
                  · by_contra hnd
                    exact h3 ⟨hd, Or.inl (by simpa using hnd)⟩
                  · by_contra hnd
                    exact h3 ⟨hd, Or.inr (by simpa using hnd)⟩
              · by_cases hf : f = PyVal.pnone
                · exact Or.inl hf
                · refine Or.inr ⟨?_, ?_⟩
                  · by_contra hnf
                    exact h4 ⟨hf, Or.inl (by simpa using hnf)⟩
                  · by_contra hnf
                    exact h4 ⟨hf, Or.inr (by simpa using hnf)⟩

theorem delete_ok_extract {c : PyVal} {s s' : Store} {b : Bool}
    (h : delete_course c s = (.ok b, s')) :
    c.isInt = true ∧ 1 ≤ c.asInt ∧
    b = s.rows.any (fun r => (r.id : Int) = c.asInt) ∧
    s' = { s with rows := s.rows.filter (fun r => (r.id : Int) ≠ c.asInt) } := by
  unfold delete_course at h
  split at h
  · simp at h
  next h1 =>
    push_neg at h1
    simp only [Prod.mk.injEq, Except.ok.injEq] at h
    exact ⟨by simpa using h1.1, h1.2, h.1.symm, h.2.symm⟩

/-! ## The reachable-state invariant -/

theorem applyUpdate_id (t d f : PyVal) (r : Course) :
    (applyUpdate t d f r).id = r.id := rfl

theorem applyUpdate_fields {t d f : PyVal} {r : Course}
    (ht : t = PyVal.pnone ∨ (t.truthy = true ∧ t.toText.isSome = true))
    (hd : d = PyVal.pnone ∨ (d.isInt = true ∧ d.lt0 = false))
    (hf : f = PyVal.pnone ∨ (f.isNum = true ∧ f.lt0 = false))
    (h0 : r.title ≠ "" ∧ 0 ≤ r.duration ∧ 0 ≤ r.fee) :
    (applyUpdate t d f r).title ≠ "" ∧ 0 ≤ (applyUpdate t d f r).duration ∧
      0 ≤ (applyUpdate t d f r).fee := by
  refine ⟨?_, ?_, ?_⟩
  · show (if t ≠ PyVal.pnone then t.toText.getD r.title else r.title) ≠ ""
    rcases ht with rfl | ⟨ht1, ht2⟩
    · simpa using h0.1
    · obtain ⟨x, hx⟩ := Option.isSome_iff_exists.mp ht2
      by_cases hne : t = PyVal.pnone
      · subst hne; simp [PyVal.toText] at hx
      · rw [if_pos hne, hx]
        exact toText_ne_empty ht1 hx
  · show 0 ≤ (if d ≠ PyVal.pnone then d.asInt else r.duration)
    rcases hd with rfl | ⟨hd1, hd2⟩
    · simpa using h0.2.1
    · by_cases hne : d = PyVal.pnone
      · subst hne; simp [PyVal.isInt] at hd1
      · rw [if_pos hne]
        exact asInt_nonneg hd1 hd2
  · show 0 ≤ (if f ≠ PyVal.pnone then f.pyFloat else r.fee)
    rcases hf with rfl | ⟨hf1, hf2⟩
    · simpa using h0.2.2
    · by_cases hne : f = PyVal.pnone
      · subst hne; simp [PyVal.isNum] at hf1
      · rw [if_pos hne]
        exact pyFloat_nonneg hf1 hf2

/-- The invariant tying a reachable store state to the list `ids` of ids
assigned so far: rows carry previously assigned ids, every assigned id is
positive and below the `AUTOINCREMENT` counter, rows are strictly sorted by
id (so ids are unique), and every stored record is well-formed. -/
structure StoreInv (s : Store) (ids : List Nat) : Prop where
  rows_ids : ∀ r ∈ s.rows, r.id ∈ ids
  ids_pos : ∀ i ∈ ids, 0 < i
  ids_lt : ∀ i ∈ ids, i < s.nextId
  sorted : s.rows.Pairwise (fun a b => a.id < b.id)
  fields : ∀ r ∈ s.rows, r.title ≠ "" ∧ 0 ≤ r.duration ∧ 0 ≤ r.fee
  one_le : 1 ≤ s.nextId

theorem reach_inv {s : Store} {ids : List Nat} (h : Reach s ids) :
    StoreInv s ids := by
  induction h with
  | init =>
    exact ⟨by simp [store0], by simp, by simp, by simp [store0],
      by simp [store0], by simp [store0]⟩
  | createOk hR hc ih =>
    obtain ⟨ht1, ht2, hd1, hd2, hf1, hf2, rfl, rfl⟩ := create_ok_extract hc
    refine ⟨?_, ?_, ?_, ?_, ?_, ?_⟩
    · intro r hrm
      rcases List.mem_append.mp hrm with hrm | hrm
      · exact List.mem_append.mpr (Or.inl (ih.rows_ids r hrm))
      · simp only [List.mem_singleton] at hrm
        subst hrm
        simp
    · intro j hj
      rcases List.mem_append.mp hj with hj | hj
      · exact ih.ids_pos j hj
      · simp only [List.mem_singleton] at hj
        subst hj
        have := ih.one_le
        omega
    · intro j hj
      rcases List.mem_append.mp hj with hj | hj
      · have := ih.ids_lt j hj
        show j < _ + 1
        omega
      · simp only [List.mem_singleton] at hj
        subst hj
        show _ < _ + 1
        omega
    · refine List.pairwise_append.mpr ⟨ih.sorted, by simp, ?_⟩
      intro a ha b hb
      simp only [List.mem_singleton] at hb
      subst hb
      exact ih.ids_lt _ (ih.rows_ids a ha)
    · intro r hrm
      rcases List.mem_append.mp hrm with hrm | hrm
      · exact ih.fields r hrm
      · simp only [List.mem_singleton] at hrm
        subst hrm
        exact ⟨asStr_ne_empty ht1 ht2, asInt_nonneg hd1 hd2,
          pyFloat_nonneg hf1 hf2⟩
    · show 1 ≤ _ + 1
      omega
  | createErr hR hc ih => rwa [create_error_unchanged hc]
  | @updateOk s ids c t d f b s' hR hc ih =>
    obtain ⟨hc1, hc2, ht, htx, hd, hf, hne, rfl, rfl⟩ := update_ok_extract hc
    have gid : ∀ r : Course,
        (if ((r.id : Int) = c.asInt) then applyUpdate t d f r else r).id
          = r.id := by
      intro r
      split
      · exact applyUpdate_id t d f r
      · rfl
    refine ⟨?_, ih.ids_pos, ?_, ?_, ?_, ih.one_le⟩
    · intro r hrm
      obtain ⟨r0, hr0, rfl⟩ := List.mem_map.mp hrm
      rw [gid r0]
      exact ih.rows_ids r0 hr0
    · exact ih.ids_lt
    · refine List.pairwise_map.mpr ?_
      refine ih.sorted.imp ?_
      intro a b hab
      rwa [gid a, gid b]
    · intro r hrm
      obtain ⟨r0, hr0, rfl⟩ := List.mem_map.mp hrm
      by_cases hm : ((r0.id : Int) = c.asInt)
      · rw [if_pos hm]
        refine applyUpdate_fields ?_ hd hf (ih.fields r0 hr0)
        rcases ht with rfl | ht
        · exact Or.inl rfl
        · rcases htx with h | h
          · exact Or.inl h
          · exact Or.inr ⟨ht, h⟩
      · rw [if_neg hm]
        exact ih.fields r0 hr0
  | updateErr hR hc ih => rwa [update_error_unchanged hc]
  | deleteOk hR hc ih =>
    obtain ⟨hc1, hc2, rfl, rfl⟩ := delete_ok_extract hc
    refine ⟨?_, ih.ids_pos, ?_, ?_, ?_, ih.one_le⟩
    · intro r hrm
      exact ih.rows_ids r (List.mem_of_mem_filter hrm)
    · exact ih.ids_lt
    · exact List.Pairwise.sublist (List.filter_sublist _) ih.sorted
    · intro r hrm
      exact ih.fields r (List.mem_of_mem_filter hrm)
  | deleteErr hR hc ih => rwa [delete_error_unchanged hc]

/-! ## Lookup lemmas for sorted rows -/

theorem sorted_find?_mem {rows : List Course}
    (hs : rows.Pairwise (fun a b => a.id < b.id)) {r : Course}
    (hr : r ∈ rows) :
    rows.find? (fun x => (x.id : Int) = (r.id : Int)) = some r := by
  induction rows with
  | nil => cases hr
  | cons a l ih =>
    rcases List.mem_cons.mp hr with rfl | hr2
    · simp
    · have ha : a.id < r.id := (List.pairwise_cons.mp hs).1 r hr2
      rw [List.find?_cons_of_neg _ (by simp; omega)]
      exact ih (List.pairwise_cons.mp hs).2 hr2

theorem find?_eq_none_of_no_match {rows : List Course} {k : Int}
    (h : ∀ r ∈ rows, (r.id : Int) ≠ k) :
    rows.find? (fun x => (x.id : Int) = k) = Option.none := by
  rw [List.find?_eq_none]
  intro a ha
  simpa using h a ha

/-! ## Validation behaviour lemmas -/

theorem create_title_error_iff (t d f : PyVal) (s : Store) :
    ((create_course t d f s).1
        = .error (.valueError "title must be a non-empty string"))
      ↔ (t.isStr = false ∨ t = PyVal.pstr "") := by
  have key : (¬ t.truthy ∨ ¬ t.isStr) ↔ (t.isStr = false ∨ t = PyVal.pstr "") := by
    cases t <;> simp [PyVal.truthy, PyVal.isStr]
  unfold create_course
  split_ifs with hA hB hC <;> simp_all

theorem create_duration_error_iff (t d f : PyVal) (s : Store)
    (ht : t.truthy = true ∧ t.isStr = true) :
    ((create_course t d f s).1
        = .error (.valueError "duration must be a non-negative integer"))
      ↔ (d.isInt = false ∨ d.lt0 = true) := by
  unfold create_course
  split_ifs with hA hB hC <;> simp_all

theorem create_fee_error_iff (t d f : PyVal) (s : Store)
    (ht : t.truthy = true ∧ t.isStr = true)
    (hd : d.isInt = true ∧ d.lt0 = false) :
    ((create_course t d f s).1
        = .error (.valueError "fee must be a non-negative number"))
      ↔ (f.isNum = false ∨ f.lt0 = true) := by
  unfold create_course
  split_ifs with hA hB hC <;> simp_all

theorem update_title_error_iff {cid t d f : PyVal} {s : Store}
    (h1 : cid.isInt = true) (h2 : 1 ≤ cid.asInt) (h3 : t ≠ PyVal.pnone) :
    ((update_course cid t d f s).1
        = .error (.valueError "title must be a non-empty string"))
      ↔ t.truthy = false := by
  unfold update_course
  rw [if_neg (by simp [h1]; omega)]
  split_ifs with hA hB hC hD hE <;> simp_all

theorem update_duration_error_iff {cid t d f : PyVal} {s : Store}
    (h1 : cid.isInt = true) (h2 : 1 ≤ cid.asInt)
    (ht : t = PyVal.pnone ∨ t.truthy = true) :
    ((update_course cid t d f s).1
        = .error (.valueError "duration must be a non-negative integer"))
      ↔ (d ≠ PyVal.pnone ∧ (d.isInt = false ∨ d.lt0 = true)) := by
  unfold update_course
  rw [if_neg (by simp [h1]; omega)]
  rw [if_neg (by rcases ht with rfl | ht <;> simp [*])]
  split_ifs with hB hC hD hE <;> simp_all

theorem update_fee_error_iff {cid t d f : PyVal} {s : Store}
    (h1 : cid.isInt = true) (h2 : 1 ≤ cid.asInt)
    (ht : t = PyVal.pnone ∨ t.truthy = true)
    (hd : d = PyVal.pnone ∨ (d.isInt = true ∧ d.lt0 = false)) :
    ((update_course cid t d f s).1
        = .error (.valueError "fee must be a non-negative number"))
      ↔ (f ≠ PyVal.pnone ∧ (f.isNum = false ∨ f.lt0 = true)) := by
  unfold update_course
  rw [if_neg (by simp [h1]; omega)]
  rw [if_neg (by rcases ht with rfl | ht <;> simp [*])]
  rw [if_neg (by rcases hd with rfl | hd <;> simp [*])]
  split_ifs with hC hD hE <;> simp_all

theorem update_no_fields_error (cid : PyVal) (s : Store) :
    ∃ m, (update_course cid PyVal.pnone PyVal.pnone PyVal.pnone s).1
      = .error (.valueError m) := by
  unfold update_course
  split_ifs with hA hB hC hD hE <;> simp_all

/-- Successful `update_course` call supplying only a valid new title for an
existing course id on a reachable store: returns `True` and rewrites exactly
the title of the matching row. -/
theorem update_title_ok {s : Store} {ids : List Nat} (hs : Reach s ids)
    {r : Course} (hr : r ∈ s.rows) {t : String} (ht : t ≠ "") :
    update_course (PyVal.pint (r.id : Int)) (PyVal.pstr t)
        PyVal.pnone PyVal.pnone s
      = (.ok true,
         { s with rows := s.rows.map (fun x =>
             if (x.id : Int) = ((r.id : Nat) : Int)
             then { x with title := t } else x) }) := by
  have hinv := reach_inv hs
  have hpos : 0 < r.id := hinv.ids_pos _ (hinv.rows_ids r hr)
  have hfun : (fun x : Course =>
      if (x.id : Int) = (PyVal.pint (r.id : Int)).asInt
      then applyUpdate (PyVal.pstr t) PyVal.pnone PyVal.pnone x else x)
      = (fun x : Course => if (x.id : Int) = ((r.id : Nat) : Int)
      then { x with title := t } else x) := by
    funext x
    simp [PyVal.asInt, applyUpdate, PyVal.toText]
  have hmatch : (s.rows.any
      (fun x => (x.id : Int) = (PyVal.pint (r.id : Int)).asInt)) = true :=
    List.any_eq_true.mpr ⟨r, hr, by simp [PyVal.asInt]⟩
  unfold update_course
  rw [if_neg (by simp [PyVal.isInt, PyVal.asInt]; omega)]
  rw [if_neg (by simp [PyVal.truthy, ht])]
  rw [if_neg (by simp)]
  rw [if_neg (by simp)]
  rw [if_neg (by simp)]
  rw [if_neg (by simp [PyVal.toText])]
  rw [hfun, hmatch]

/-! ## The claims -/

/-- Claim C1: for every valid input (non-empty string title, non-negative
integer duration, non-negative numeric fee) on any reachable store,
`create_course` returns an id never assigned before, and an immediately
following `get_course` on that id returns a record whose title, duration and
fee equal the created values and whose id is the returned id. -/
theorem C1_create_then_get_roundtrip {s : Store} {ids : List Nat}
    (hs : Reach s ids) {t : String} (ht : t ≠ "") {d : Int} (hd : 0 ≤ d)
    {fee : PyVal} (hf1 : fee.isNum = true) (hf2 : fee.lt0 = false) :
    ∃ i s', create_course (PyVal.pstr t) (PyVal.pint d) fee s = (.ok i, s') ∧
      i ∉ ids ∧
      get_course (PyVal.pint (i : Int)) s' =
        .ok (some ⟨i, t, d, fee.pyFloat⟩) := by
  have hinv := reach_inv hs
  have hcr : create_course (PyVal.pstr t) (PyVal.pint d) fee s
      = (.ok s.nextId,
         ⟨s.rows ++ [⟨s.nextId, t, d, fee.pyFloat⟩], s.nextId + 1⟩) := by
    unfold create_course
    rw [if_neg (by simp [PyVal.truthy, PyVal.isStr, ht])]
    rw [if_neg (by simp [PyVal.isInt, PyVal.lt0]; omega)]
    rw [if_neg (by simp [hf1, hf2])]
    simp [PyVal.asStr, PyVal.asInt]
  refine ⟨s.nextId, _, hcr, ?_, ?_⟩
  · intro hmem
    exact absurd (hinv.ids_lt _ hmem) (by omega)
  · have hs1 := Reach.createOk hs hcr
    have hinv1 := reach_inv hs1
    unfold get_course
    rw [if_neg (by simp [PyVal.isInt, PyVal.asInt]; have := hinv.one_le; omega)]
    have hmem : (⟨s.nextId, t, d, fee.pyFloat⟩ : Course)
        ∈ s.rows ++ [⟨s.nextId, t, d, fee.pyFloat⟩] := by simp
    have hfind := sorted_find?_mem hinv1.sorted hmem
    simpa [PyVal.asInt] using hfind

/-- Witness for C1 at the spec's concrete round-trip input
`("Intro", 10, 199.99)` on a fresh store. -/
theorem C1_create_then_get_roundtrip_witness :
    ∃ i s', create_course (PyVal.pstr "Intro") (PyVal.pint 10)
        (PyVal.pfloat (19999/100)) store0 = (.ok i, s') ∧
      i ∉ ([] : List Nat) ∧
      get_course (PyVal.pint (i : Int)) s' =
        .ok (some ⟨i, "Intro", 10, (PyVal.pfloat (19999/100)).pyFloat⟩) :=
  C1_create_then_get_roundtrip Reach.init (by decide) (by decide)
    (by decide) (by norm_num [PyVal.lt0])

/-- Claim C4: any id returned by a successful `create_course` call is
strictly greater than every id assigned earlier in the store's lifetime,
including ids of courses that have since been deleted (ids are assigned
monotonically and never reused). -/
theorem C4_create_id_fresh {s : Store} {ids : List Nat} (hs : Reach s ids)
    {t d f : PyVal} {i : Nat} {s' : Store}
    (hc : create_course t d f s = (.ok i, s')) :
    ∀ j ∈ ids, j < i := by
  obtain ⟨-, -, -, -, -, -, rfl, -⟩ := create_ok_extract hc
  exact fun j hj => (reach_inv hs).ids_lt j hj

/-- Witness for C4: the second course created in a store gets id 2, strictly
above the previously assigned id 1. -/
theorem C4_create_id_fresh_witness : (1 : Nat) < 2 :=
  (fun h => h 1 (by simp)) <| C4_create_id_fresh
    (show Reach (⟨[⟨1, "a", 1, 1⟩], 2⟩ : Store) [1] from
      Reach.createOk Reach.init
        (show create_course (PyVal.pstr "a") (PyVal.pint 1) (PyVal.pint 1)
            store0 = (.ok 1, ⟨[⟨1, "a", 1, 1⟩], 2⟩) from rfl))
    (show create_course (PyVal.pstr "b") (PyVal.pint 2) (PyVal.pint 2)
        (⟨[⟨1, "a", 1, 1⟩], 2⟩ : Store)
      = (.ok 2, ⟨[⟨1, "a", 1, 1⟩, ⟨2, "b", 2, 2⟩], 3⟩) from rfl)

/-- Claim C5: `get_course` raises `ValueError` exactly when the id is not a
positive integer; for a valid id it always returns a result, `none` when no
row matches (never created or already deleted), and the matching record when
one exists. -/
theorem C5_get_course_spec :
    (∀ (cid : PyVal) (s : Store),
      (∃ m, get_course cid s = .error (.valueError m)) ↔
        ¬ (cid.isInt = true ∧ 1 ≤ cid.asInt)) ∧
    (∀ (cid : PyVal) (s : Store), cid.isInt = true → 1 ≤ cid.asInt →
      ∃ o, get_course cid s = .ok o) ∧
    (∀ (cid : PyVal) (s : Store), cid.isInt = true → 1 ≤ cid.asInt →
      (∀ r ∈ s.rows, (r.id : Int) ≠ cid.asInt) →
        get_course cid s = .ok Option.none) ∧
    (∀ (s : Store) (ids : List Nat), Reach s ids → ∀ r ∈ s.rows,
        get_course (PyVal.pint (r.id : Int)) s = .ok (some r)) := by
  refine ⟨?_, ?_, ?_, ?_⟩
  · intro cid s
    unfold get_course
    split_ifs with h
    · constructor
      · intro hex
        intro hc
        rcases h with h | h
        · exact h (by simp [hc.1])
        · exact absurd hc.2 (by omega)
      · intro hn
        exact ⟨_, rfl⟩
    · push_neg at h
      constructor
      · rintro ⟨m, hm⟩
        exact hm.elim
      · intro hn
        exact absurd ⟨by simpa using h.1, h.2⟩ hn
  · intro cid s h1 h2
    unfold get_course
    rw [if_neg (by simp [h1]; omega)]
    exact ⟨_, rfl⟩
  · intro cid s h1 h2 hno
    unfold get_course
    rw [if_neg (by simp [h1]; omega)]
    rw [find?_eq_none_of_no_match hno]
  · intro s ids hs r hr
    have hinv := reach_inv hs
    have hpos : 0 < r.id := hinv.ids_pos _ (hinv.rows_ids r hr)
    unfold get_course
    rw [if_neg (by simp [PyVal.isInt, PyVal.asInt]; omega)]
    simpa [PyVal.asInt] using sorted_find?_mem hinv.sorted hr

/-- Witness for C5: a valid never-created id returns `none`, and a
non-integer id yields a `ValueError`. -/
theorem C5_get_course_spec_witness :
    get_course (PyVal.pint 1) store0 = .ok Option.none ∧
    (∃ m, get_course (PyVal.pstr "x") store0 = .error (.valueError m)) :=
  ⟨C5_get_course_spec.2.2.1 (PyVal.pint 1) store0 (by decide) (by decide)
      (by simp [store0]),
   (C5_get_course_spec.1 (PyVal.pstr "x") store0).mpr (by decide)⟩

/-- Claim C6: deleting an existing course id returns `True` and removes the
record; a second `delete_course` on the same id then returns `False` (and
changes nothing). -/
theorem C6_delete_once {s : Store} {ids : List Nat} (hs : Reach s ids)
    {r : Course} (hr : r ∈ s.rows) :
    ∃ s', delete_course (PyVal.pint (r.id : Int)) s = (.ok true, s') ∧
      (∀ x ∈ s'.rows, x.id ≠ r.id) ∧
      delete_course (PyVal.pint (r.id : Int)) s' = (.ok false, s') := by
  have hinv := reach_inv hs
  have hpos : 0 < r.id := hinv.ids_pos _ (hinv.rows_ids r hr)
  have hdel : delete_course (PyVal.pint (r.id : Int)) s
      = (.ok true, { s with rows := s.rows.filter (fun x =>
          (x.id : Int) ≠ ((r.id : Nat) : Int)) }) := by
    unfold delete_course
    rw [if_neg (by simp [PyVal.isInt, PyVal.asInt]; omega)]
    have hmatch : (s.rows.any
        (fun x => (x.id : Int) = (PyVal.pint (r.id : Int)).asInt)) = true :=
      List.any_eq_true.mpr ⟨r, hr, by simp [PyVal.asInt]⟩
    rw [hmatch]
    simp [PyVal.asInt]
  refine ⟨_, hdel, ?_, ?_⟩
  · intro x hx
    have h2 := (List.mem_filter.mp hx).2
    simp at h2
    exact_mod_cast h2
  · unfold delete_course
    rw [if_neg (by simp [PyVal.isInt, PyVal.asInt]; omega)]
    have hany : ((s.rows.filter (fun x =>
        (x.id : Int) ≠ ((r.id : Nat) : Int))).any
        (fun x => (x.id : Int) = (PyVal.pint (r.id : Int)).asInt)) = false := by
      rw [List.any_eq_false]
      intro x hx
      have h2 := (List.mem_filter.mp hx).2
      simp [PyVal.asInt] at h2 ⊢
      exact h2
    have hfil : ((s.rows.filter (fun x =>
        (x.id : Int) ≠ ((r.id : Nat) : Int))).filter
        (fun x => (x.id : Int) ≠ (PyVal.pint (r.id : Int)).asInt))
        = s.rows.filter (fun x => (x.id : Int) ≠ ((r.id : Nat) : Int)) := by
      rw [List.filter_eq_self]
      intro x hx
      simpa [PyVal.asInt] using (List.mem_filter.mp hx).2
    rw [hany, hfil]

/-- Witness for C6 on a store holding one course with id 1. -/
theorem C6_delete_once_witness :
    ∃ s', delete_course (PyVal.pint (((⟨1, "a", 1, 1⟩ : Course).id : Nat) : Int))
        (⟨[⟨1, "a", 1, 1⟩], 2⟩ : Store) = (.ok true, s') ∧
      (∀ x ∈ s'.rows, x.id ≠ (⟨1, "a", 1, 1⟩ : Course).id) ∧
      delete_course (PyVal.pint (((⟨1, "a", 1, 1⟩ : Course).id : Nat) : Int)) s'
        = (.ok false, s') :=
  C6_delete_once
    (Reach.createOk Reach.init
      (show create_course (PyVal.pstr "a") (PyVal.pint 1) (PyVal.pint 1)
          store0 = (.ok 1, ⟨[⟨1, "a", 1, 1⟩], 2⟩) from rfl))
    (by simp)

/-- Claim C7: `list_courses` returns exactly the rows of the store in
strictly ascending id order, the empty list on an empty store, and on the
store obtained by creating ids 1, 2, 3 and deleting id 2 it yields the
records with ids 1 and 3 in that order. -/
theorem C7_list_sorted {s : Store} {ids : List Nat} (hs : Reach s ids) :
    list_courses s = s.rows ∧
    (list_courses s).Pairwise (fun a b => a.id < b.id) ∧
    (s.rows = [] → list_courses s = []) ∧
    (list_courses demo123).map Course.id = [1, 3] := by
  have hinv := reach_inv hs
  have hsorted : s.rows.Sorted (fun a b => a.id ≤ b.id) :=
    hinv.sorted.imp (fun h => Nat.le_of_lt h)
  have heq : list_courses s = s.rows := hsorted.insertionSort_eq
  refine ⟨heq, heq ▸ hinv.sorted, fun h => by rw [heq, h], by decide⟩

/-- Witness for C7 at the fresh store (including the concrete 1-2-3 delete-2
scenario carried by the theorem). -/
theorem C7_list_sorted_witness :
    list_courses store0 = store0.rows ∧
    (list_courses store0).Pairwise (fun a b => a.id < b.id) ∧
    (store0.rows = [] → list_courses store0 = []) ∧
    (list_courses demo123).map Course.id = [1, 3] :=
  C7_list_sorted Reach.init

/-- Claim C8: updating only the title of an existing course and then getting
it returns the record with the new title and the previous duration and fee
(unsupplied fields are unchanged). -/
theorem C8_update_title_frame {s : Store} {ids : List Nat} (hs : Reach s ids)
    {r : Course} (hr : r ∈ s.rows) (t : String) (ht : t ≠ "") :
    ∃ s', update_course (PyVal.pint (r.id : Int)) (PyVal.pstr t)
        PyVal.pnone PyVal.pnone s = (.ok true, s') ∧
      get_course (PyVal.pint (r.id : Int)) s' =
        .ok (some { r with title := t }) := by
  have hup := update_title_ok hs hr ht
  refine ⟨_, hup, ?_⟩
  have hs' := Reach.updateOk hs hup
  have hinv' := reach_inv hs'
  have hpos : 0 < r.id := (reach_inv hs).ids_pos _ ((reach_inv hs).rows_ids r hr)
  unfold get_course
  rw [if_neg (by simp [PyVal.isInt, PyVal.asInt]; omega)]
  have hmem : ({ r with title := t } : Course) ∈
      (s.rows.map (fun x => if (x.id : Int) = ((r.id : Nat) : Int)
        then { x with title := t } else x)) := by
    have heq : ({ r with title := t } : Course)
        = (if ((r.id : Int) = ((r.id : Nat) : Int))
           then ({ r with title := t } : Course) else r) := by simp
    rw [heq]
    exact List.mem_map_of_mem _ hr
  have hfind := sorted_find?_mem hinv'.sorted hmem
  simpa [PyVal.asInt] using hfind

/-- Witness for C8 on a store holding one course with id 1. -/
theorem C8_update_title_frame_witness :
    ∃ s', update_course (PyVal.pint (((⟨1, "a", 1, 1⟩ : Course).id : Nat) : Int))
        (PyVal.pstr "X") PyVal.pnone PyVal.pnone
        (⟨[⟨1, "a", 1, 1⟩], 2⟩ : Store) = (.ok true, s') ∧
      get_course (PyVal.pint (((⟨1, "a", 1, 1⟩ : Course).id : Nat) : Int)) s' =
        .ok (some { (⟨1, "a", 1, 1⟩ : Course) with title := "X" }) :=
  C8_update_title_frame
    (Reach.createOk Reach.init
      (show create_course (PyVal.pstr "a") (PyVal.pint 1) (PyVal.pint 1)
          store0 = (.ok 1, ⟨[⟨1, "a", 1, 1⟩], 2⟩) from rfl))
    (by simp) "X" (by decide)

/-- Claim C2: in every store state reachable by any sequence of
`create_course`, `update_course` and `delete_course` calls, every stored
record has a non-empty title, a non-negative duration and a non-negative
fee. -/
theorem C2_record_invariant {s : Store} {ids : List Nat} (hs : Reach s ids) :
    ∀ r ∈ s.rows, r.title ≠ "" ∧ 0 ≤ r.duration ∧ 0 ≤ r.fee :=
  fun r hr => (reach_inv hs).fields r hr

/-- Witness for C2 at a concrete reachable one-row store and its row. -/
theorem C2_record_invariant_witness :
    (⟨1, "a", 1, 1⟩ : Course).title ≠ "" ∧
      0 ≤ (⟨1, "a", 1, 1⟩ : Course).duration ∧
      0 ≤ (⟨1, "a", 1, 1⟩ : Course).fee :=
  C2_record_invariant
    (Reach.createOk Reach.init
      (show create_course (PyVal.pstr "a") (PyVal.pint 1) (PyVal.pint 1)
          store0 = (.ok 1, ⟨[⟨1, "a", 1, 1⟩], 2⟩) from rfl))
    (⟨1, "a", 1, 1⟩ : Course) (by simp)

/-- Counterexample to claim C3 as stated: the supplied title `5` (a truthy
non-string) violates the create rule "title must be a non-empty string", yet
`update_course` accepts it (returning ok) instead of raising, so a supplied
title is not validated with the same rules as `create_course`. -/
theorem C3_counterexample :
    (update_course (PyVal.pint 1) (PyVal.pint 5) PyVal.pnone PyVal.pnone
        store0).1 = .ok false ∧
    (create_course (PyVal.pint 5) (PyVal.pint 0) (PyVal.pint 0) store0).1
      = .error (.valueError "title must be a non-empty string") :=
  ⟨rfl, rfl⟩

/-- Claim C3 as amended: `update_course` raises a `ValueError` when no field
is supplied, for any id whatsoever; a supplied duration or fee is validated
with exactly the same rules as `create_course`; a supplied title, however, is
only required to be truthy (it raises exactly when the title is falsy, with
no check that it is a string). -/
theorem C3_amended_update_validation :
    (∀ (cid : PyVal) (s : Store), ∃ m,
      (update_course cid PyVal.pnone PyVal.pnone PyVal.pnone s).1
        = .error (.valueError m)) ∧
    (∀ (cid t d f : PyVal) (s : Store), cid.isInt = true → 1 ≤ cid.asInt →
      t ≠ PyVal.pnone →
      (((update_course cid t d f s).1
          = .error (.valueError "title must be a non-empty string"))
        ↔ t.truthy = false)) ∧
    (∀ (cid t d f : PyVal) (s s2 : Store), cid.isInt = true → 1 ≤ cid.asInt →
      (t = PyVal.pnone ∨ t.truthy = true) → d ≠ PyVal.pnone →
      (((update_course cid t d f s).1
          = .error (.valueError "duration must be a non-negative integer"))
        ↔ ((create_course (PyVal.pstr "x") d (PyVal.pint 0) s2).1
          = .error (.valueError "duration must be a non-negative integer")))) ∧
    (∀ (cid t d f : PyVal) (s s2 : Store), cid.isInt = true → 1 ≤ cid.asInt →
      (t = PyVal.pnone ∨ t.truthy = true) →
      (d = PyVal.pnone ∨ (d.isInt = true ∧ d.lt0 = false)) →
      f ≠ PyVal.pnone →
      (((update_course cid t d f s).1
          = .error (.valueError "fee must be a non-negative number"))
        ↔ ((create_course (PyVal.pstr "x") (PyVal.pint 0) f s2).1
          = .error (.valueError "fee must be a non-negative number")))) := by
  refine ⟨update_no_fields_error, ?_, ?_, ?_⟩
  · intro cid t d f s h1 h2 h3
    exact update_title_error_iff h1 h2 h3
  · intro cid t d f s s2 h1 h2 ht hd
    rw [update_duration_error_iff h1 h2 ht,
      create_duration_error_iff (PyVal.pstr "x") d (PyVal.pint 0) s2 (by decide)]
    constructor
    · rintro ⟨-, h⟩
      exact h
    · intro h
      exact ⟨hd, h⟩
  · intro cid t d f s s2 h1 h2 ht hd hf
    rw [update_fee_error_iff h1 h2 ht hd,
      create_fee_error_iff (PyVal.pstr "x") (PyVal.pint 0) f s2 (by decide)
        (by decide)]
    constructor
    · rintro ⟨-, h⟩
      exact h
    · intro h
      exact ⟨hf, h⟩

/-- Witness for the amended C3: no-fields update fails on a valid id, and a
negative supplied duration is rejected by update exactly as by create. -/
theorem C3_amended_update_validation_witness :
    (∃ m, (update_course (PyVal.pint 1) PyVal.pnone PyVal.pnone PyVal.pnone
        store0).1 = .error (.valueError m)) ∧
    (((update_course (PyVal.pint 1) (PyVal.pstr "x") (PyVal.pint (-1))
          PyVal.pnone store0).1
        = .error (.valueError "duration must be a non-negative integer"))
      ↔ ((create_course (PyVal.pstr "x") (PyVal.pint (-1)) (PyVal.pint 0)
          store0).1
        = .error (.valueError "duration must be a non-negative integer"))) :=
  ⟨C3_amended_update_validation.1 (PyVal.pint 1) store0,
   C3_amended_update_validation.2.2.1 (PyVal.pint 1) (PyVal.pstr "x")
     (PyVal.pint (-1)) PyVal.pnone store0 store0 (by decide) (by decide)
     (Or.inr (by decide)) (by decide)⟩

/-- Claim C9: whenever `create_course`, `update_course` or `delete_course`
returns an error of either kind, the store is exactly as before the call
(validation happens before storage, and the single mutating statement is
transactional), so no partial-failure state is ever left behind. -/
theorem C9_errors_leave_store_unchanged :
    (∀ (t d f : PyVal) (s s' : Store) (e : CrudError),
      create_course t d f s = (.error e, s') → s' = s) ∧
    (∀ (c t d f : PyVal) (s s' : Store) (e : CrudError),
      update_course c t d f s = (.error e, s') → s' = s) ∧
    (∀ (c : PyVal) (s s' : Store) (e : CrudError),
      delete_course c s = (.error e, s') → s' = s) :=
  ⟨fun _ _ _ _ _ _ h => create_error_unchanged h,
   fun _ _ _ _ _ _ _ h => update_error_unchanged h,
   fun _ _ _ _ h => delete_error_unchanged h⟩

/-- Witness for C9: a failing create on the fresh store leaves it as it
was. -/
theorem C9_errors_leave_store_unchanged_witness :
    (create_course PyVal.pnone PyVal.pnone PyVal.pnone store0 =
      ((.error (.valueError "title must be a non-empty string") :
        Except CrudError Nat), store0)) ∧ store0 = store0 :=
  ⟨rfl, C9_errors_leave_store_unchanged.1 PyVal.pnone PyVal.pnone PyVal.pnone
    store0 store0 (.valueError "title must be a non-empty string") rfl⟩

/-- Claim C10: a whitespace-only title such as `" "` is accepted by both
`create_course` and `update_course` and stored as-is; for the title field,
`create_course` raises exactly when the title is not a string or is the
empty string, and `update_course` raises for a supplied title exactly when
it is falsy. -/
theorem C10_title_truthiness_rules :
    (∀ (d f : PyVal) (s : Store), d.isInt = true → d.lt0 = false →
      f.isNum = true → f.lt0 = false →
      ∃ s', create_course (PyVal.pstr " ") d f s = (.ok s.nextId, s') ∧
        ∃ r ∈ s'.rows, r.id = s.nextId ∧ r.title = " ") ∧
    (∀ (s : Store) (ids : List Nat), Reach s ids → ∀ r ∈ s.rows,
      ∃ s', update_course (PyVal.pint (r.id : Int)) (PyVal.pstr " ")
          PyVal.pnone PyVal.pnone s = (.ok true, s') ∧
        ∃ x ∈ s'.rows, x.id = r.id ∧ x.title = " ") ∧
    (∀ (t d f : PyVal) (s : Store),
      ((create_course t d f s).1
          = .error (.valueError "title must be a non-empty string"))
        ↔ (t.isStr = false ∨ t = PyVal.pstr "")) ∧
    (∀ (cid t d f : PyVal) (s : Store), cid.isInt = true → 1 ≤ cid.asInt →
      t ≠ PyVal.pnone →
      (((update_course cid t d f s).1
          = .error (.valueError "title must be a non-empty string"))
        ↔ t.truthy = false)) := by
  refine ⟨?_, ?_, create_title_error_iff, ?_⟩
  · intro d f s hd1 hd2 hf1 hf2
    have hcr : create_course (PyVal.pstr " ") d f s
        = (.ok s.nextId,
           ⟨s.rows ++ [⟨s.nextId, " ", d.asInt, f.pyFloat⟩], s.nextId + 1⟩) := by
      unfold create_course
      rw [if_neg (by simp [PyVal.truthy, PyVal.isStr])]
      rw [if_neg (by simp [hd1, hd2])]
      rw [if_neg (by simp [hf1, hf2])]
      simp [PyVal.asStr]
    exact ⟨_, hcr, ⟨s.nextId, " ", d.asInt, f.pyFloat⟩, by simp, rfl, rfl⟩
  · intro s ids hs r hr
    have hup := update_title_ok hs hr (t := " ") (by decide)
    refine ⟨_, hup, { r with title := " " }, ?_, rfl, rfl⟩
    have heq : ({ r with title := " " } : Course)
        = (if ((r.id : Int) = ((r.id : Nat) : Int))
           then ({ r with title := " " } : Course) else r) := by simp
    rw [heq]
    exact List.mem_map_of_mem _ hr
  · intro cid t d f s h1 h2 h3
    exact update_title_error_iff h1 h2 h3

/-- Witness for C10 at concrete inputs on the fresh store. -/
theorem C10_title_truthiness_rules_witness :
    (∃ s', create_course (PyVal.pstr " ") (PyVal.pint 1) (PyVal.pint 1) store0
        = (.ok store0.nextId, s') ∧
      ∃ r ∈ s'.rows, r.id = store0.nextId ∧ r.title = " ") ∧
    (((update_course (PyVal.pint 1) (PyVal.pstr " ") PyVal.pnone PyVal.pnone
          store0).1
        = .error (.valueError "title must be a non-empty string"))
      ↔ (PyVal.pstr " ").truthy = false) :=
  ⟨C10_title_truthiness_rules.1 (PyVal.pint 1) (PyVal.pint 1) store0
     (by decide) (by decide) (by decide) (by decide),
   C10_title_truthiness_rules.2.2.2 (PyVal.pint 1) (PyVal.pstr " ")
     PyVal.pnone PyVal.pnone store0 (by decide) (by decide) (by decide)⟩
